import Mathlib

/-!
Shallow embedding of `src/app.py` (garystafford/svd-sm-hf): a Streamlit app
that submits an image to a SageMaker asynchronous-inference endpoint, polls
an S3 location for the response, decodes the returned base64 frame list to
numbered JPEG files, and encodes them into a video with ffmpeg.

The local filesystem is modelled as a partial map `String → Option (List Nat)`
from paths to byte contents (bytes as `Nat < 256`).  Python's
`base64.decodebytes` (an external stdlib dependency) is modelled by
`decodebytes` below; the S3 client and the Streamlit widgets are modelled as
explicit inputs (stub reply sequences, user-entered values).
-/

/-- `MAX_FILE_SIZE = 5 * 1024 * 1024`, from the constants section of `app.py`. -/
def MAX_FILE_SIZE : Nat := 5 * 1024 * 1024

/-- The character of a decimal digit `d < 10`, code point `48 + d`. -/
def digit_char (d : Nat) : Char := Char.ofNat (48 + d)

/-- Fuel-indexed decimal digits of `n`, most significant first; correct
whenever `n < fuel`. -/
def nat_digits_aux : Nat → Nat → List Char
  | 0, _ => []
  | fuel + 1, n =>
      if n < 10 then [digit_char n]
      else nat_digits_aux fuel (n / 10) ++ [digit_char (n % 10)]

/-- Decimal representation of `n`, exactly what Python's `str` interpolates
for a non-negative int inside an f-string: its decimal digits, no sign, no
leading zeros (and `"0"` for zero). -/
def nat_repr (n : Nat) : String := String.mk (nat_digits_aux (n + 1) n)

/-- The frame path built inside `save_video_frames` for 0-based enumerate
index `idx`: `f"frames_out/frame_0{idx+1}.jpg" if idx < 9 else
f"frames_out/frame_{idx+1}.jpg"`. -/
def frame_name (idx : Nat) : String :=
  if idx < 9 then "frames_out/frame_0" ++ nat_repr (idx + 1) ++ ".jpg"
  else "frames_out/frame_" ++ nat_repr (idx + 1) ++ ".jpg"

/-- The list of frame paths written for a frame list of length `n`
(indices `0, …, n-1`, i.e. 1-based sequence numbers `1, …, n`). -/
def frame_names (n : Nat) : List String := (List.range n).map frame_name

/-- Value of a base64 alphabet character (RFC 4648: `A-Z`, `a-z`, `0-9`,
`+`, `/`); `none` for every other character, which `binascii.a2b_base64`
discards in non-strict mode. -/
def b64_val (c : Char) : Option Nat :=
  if 65 ≤ c.toNat ∧ c.toNat ≤ 90 then some (c.toNat - 65)
  else if 97 ≤ c.toNat ∧ c.toNat ≤ 122 then some (c.toNat - 97 + 26)
  else if 48 ≤ c.toNat ∧ c.toNat ≤ 57 then some (c.toNat - 48 + 52)
  else if c.toNat = 43 then some 62
  else if c.toNat = 47 then some 63
  else none

/-- Lowercase hexadecimal digit character of `d < 16` (`0-9`, `a-f`), as
CPython's escape encoders emit. -/
def hex_char (d : Nat) : Char :=
  if d < 10 then Char.ofNat (48 + d) else Char.ofNat (87 + d)

/-- Four lowercase hex digits of `n < 0x10000`, most significant first. -/
def hex4 (n : Nat) : List Char :=
  [hex_char (n / 4096 % 16), hex_char (n / 256 % 16),
    hex_char (n / 16 % 16), hex_char (n % 16)]

/-- Eight lowercase hex digits of `n`, most significant first. -/
def hex8 (n : Nat) : List Char :=
  hex4 (n / 65536) ++ hex4 (n % 65536)

/-- Model of `bytes(s, encoding="raw_unicode_escape")` as used in
`save_video_frames`: code points below 256 map to the byte of the same
value, `U+0100`-`U+FFFF` are written out as the six bytes of a `\uXXXX`
escape, and higher code points as the ten bytes of a `\UXXXXXXXX` escape
(hex digits lowercase).  Bytes are modelled as characters of code < 256
(92 is the backslash, 117 is `u`, 85 is `U`). -/
def raw_unicode_escape (s : String) : List Char :=
  s.data.flatMap (fun c =>
    if c.toNat < 256 then [c]
    else if c.toNat < 65536 then Char.ofNat 92 :: Char.ofNat 117 :: hex4 c.toNat
    else Char.ofNat 92 :: Char.ofNat 85 :: hex8 c.toNat)

/-- The loop of CPython's `binascii.a2b_base64` in non-strict mode, which
`base64.decodebytes` calls.  State: `quad_pos` (0-3) counts the data
characters of the current quad, `leftchar` holds their leftover bits, `pads`
counts the `=` characters seen at the current quad position, `acc` holds the
output bytes in reverse.  A `=` at quad position ≥ 2 that completes the quad
(`quad_pos + pads ≥ 4`) ends the decode successfully, ignoring the rest of
the input; a `=` at quad position 0 or 1 is skipped; characters outside the
base64 alphabet are skipped; every data character resets `pads` and emits a
byte at quad positions 1, 2 and 3.  Input exhausted mid-quad
(`quad_pos ≠ 0`) raises `binascii.Error`, modelled as `none`. -/
def a2b_base64_loop : List Char → Nat → Nat → Nat → List Nat → Option (List Nat)
  | [], quad_pos, _, _, acc =>
      if quad_pos = 0 then some acc.reverse else none
  | c :: rest, quad_pos, leftchar, pads, acc =>
      if c.toNat = 61 then
        if 2 ≤ quad_pos ∧ 4 ≤ quad_pos + (pads + 1) then some acc.reverse
        else
          a2b_base64_loop rest quad_pos leftchar
            (if 2 ≤ quad_pos then pads + 1 else pads) acc
      else
        match b64_val c with
        | none => a2b_base64_loop rest quad_pos leftchar pads acc
        | some v =>
            match quad_pos with
            | 0 => a2b_base64_loop rest 1 v 0 acc
            | 1 => a2b_base64_loop rest 2 (v % 16) 0 ((leftchar * 4 + v / 16) :: acc)
            | 2 => a2b_base64_loop rest 3 (v % 4) 0 ((leftchar * 16 + v / 4) :: acc)
            | _ => a2b_base64_loop rest 0 0 0 ((leftchar * 64 + v) :: acc)

/-- Model of Python's `base64.decodebytes` (`binascii.a2b_base64`,
non-strict mode) on a byte string. -/
def a2b_base64 (bs : List Char) : Option (List Nat) :=
  a2b_base64_loop bs 0 0 0 []

/-- The decoding applied to one frame string by `save_video_frames`:
`base64.decodebytes(bytes(video_frame, encoding="raw_unicode_escape"))`.
`none` models the propagating `binascii.Error`. -/
def decodebytes (s : String) : Option (List Nat) :=
  a2b_base64 (raw_unicode_escape s)

/-- A local filesystem: a partial map from paths to byte contents. -/
def FS : Type := String → Option (List Nat)

/-- The empty filesystem (no files). -/
def fs_empty : FS := fun _ => none

/-- Writing a file: `open(name, "wb")` followed by `write(content)`
creates or truncates `name` and leaves it holding `content`. -/
def fs_write (fs : FS) (name : String) (content : List Nat) : FS :=
  fun n => if n = name then some content else fs n

/-- Loop body of `save_video_frames`, starting at enumerate index `idx`.
For each frame string it computes the frame path, opens it with mode `"wb"`
(creating/truncating the file), and writes `base64.decodebytes(frame)`.
If decoding raises, the exception propagates: the result records the failing
0-based index, the already-written files stay, and the failing frame's file
has been created empty by the `open`.  Returns (failing index if any,
resulting filesystem). -/
def save_video_frames_go : List String → Nat → FS → Option Nat × FS
  | [], _, fs => (none, fs)
  | f :: rest, idx, fs =>
      let opened := fs_write fs (frame_name idx) []
      match decodebytes f with
      | none => (some idx, opened)
      | some bytes => save_video_frames_go rest (idx + 1) (fs_write opened (frame_name idx) bytes)

/-- `save_video_frames(video_frames)` from `app.py`, acting on a modelled
filesystem: decodes each base64 frame string in order and writes it to its
numbered path under `frames_out/`. -/
def save_video_frames (video_frames : List String) (fs : FS) : Option Nat × FS :=
  save_video_frames_go video_frames 0 fs

/-- Whether a path matches the glob pattern `frames_out/*.jpg` used as the
ffmpeg input in `convert_frames_to_video` (`*` does not match `/`). -/
def glob_matches (name : String) : Bool :=
  "frames_out/".data.isPrefixOf name.data &&
    ".jpg".data.isSuffixOf name.data &&
    (name.data.drop 11).all (fun c => c.toNat ≠ 47)

/-- The set of files consumed by `convert_frames_to_video` from filesystem
`fs`: every existing file matching `frames_out/*.jpg`. -/
def convert_frames_input (fs : FS) (name : String) : Prop :=
  glob_matches name = true ∧ fs name ≠ none

/-- The reply of the S3 store to one `get_object` attempt inside
`get_model_response`: either the object is there (`content`, in which case the
subsequent `download_file` succeeds as well), or the call raises a
`ClientError` carrying an error code (`"NoSuchKey"` meaning the object does
not exist yet). -/
inductive StoreReply
  | content
  | clientError (code : String)
deriving DecidableEq

/-- Observable events of one run of `get_model_response`: a `get_object`
attempt, a `time.sleep(15)`, and the final `download_file`. -/
inductive PollEvent
  | fetch
  | sleep15
  | download
deriving DecidableEq

/-- Terminal outcome of `get_model_response`: `success` for `return True`,
`raised code` when a non-`NoSuchKey` `ClientError` is re-raised. -/
inductive PollResult
  | success
  | raised (code : String)
deriving DecidableEq

/-- Step-indexed run of the `while True:` loop of `get_model_response`
against a store stub `stub` giving the reply to the 0-based `n`-th
`get_object` attempt.  Each loop iteration calls `get_object`; on success it
calls `download_file` and returns `True`; on a `ClientError` with code
`"NoSuchKey"` it sleeps 15 seconds and continues; on any other `ClientError`
it re-raises.  `fuel` bounds the number of iterations examined: a result of
`none` means the loop is still running after `fuel` iterations.  Also
returns the list of events in order. -/
def get_model_response_run (stub : Nat → StoreReply) :
    Nat → Nat → Option PollResult × List PollEvent
  | 0, _ => (none, [])
  | fuel + 1, n =>
      match stub n with
      | .content => (some .success, [.fetch, .download])
      | .clientError code =>
          if code = "NoSuchKey" then
            let r := get_model_response_run stub fuel (n + 1)
            (r.1, .fetch :: .sleep15 :: r.2)
          else (some (.raised code), [.fetch])

/-- Externally visible actions of the `create_video` branch of `main` and of
the helpers it calls.  `s3UploadRequest` (inside `upload_file`),
`invokeEndpointAsync` and `pollFetch` (inside `get_model_response`) are
network calls. -/
inductive AppAction
  | showSizeError
  | setSessionFromImage
  | writeRequestPayload
  | s3UploadRequest
  | invokeEndpointAsync
  | pollFetch
  | writeFrames
  | runVideoEncoder
deriving DecidableEq

/-- The action sequence of one `main` render pass in which an image of
`uploadSize` bytes has been uploaded, as a function of whether the
`Create Video` button was pressed.  Mirrors `main`: the size check
(lines 64-73) only chooses between showing an error and displaying the
image/updating the session, while the `if create_video:` branch
(lines 137-146) runs `invoke_model` (local payload write, S3 upload,
async endpoint invocation), `get_model_response` (S3 polling),
`save_video_frames` and `convert_frames_to_video` unconditionally. -/
def main_actions (uploadSize : Nat) (create_video : Bool) : List AppAction :=
  (if uploadSize > MAX_FILE_SIZE then [.showSizeError] else [.setSessionFromImage]) ++
    (if create_video then
      [.writeRequestPayload, .s3UploadRequest, .invokeEndpointAsync,
        .pollFetch, .writeFrames, .runVideoEncoder]
    else [])

/-- A JSON value, as far as the payloads of `app.py` need: strings, Python
ints, Python floats (modelled as exact rationals: `json` round-trips both
exactly), and arrays. -/
inductive JVal
  | jstr (s : String)
  | jint (n : Int)
  | jfloat (q : ℚ)
  | jarr (l : List JVal)

/-- The generation parameters held in the Streamlit session state.  Fields
entered through integer-valued `st.number_input` widgets are ints, the
guidance scales and the noise strength are floats (modelled as `ℚ`). -/
structure ParameterSet where
  width : Int
  height : Int
  num_frames : Int
  num_inference_steps : Int
  min_guidance_scale : ℚ
  max_guidance_scale : ℚ
  fps : Int
  motion_bucket_id : Int
  noise_aug_strength : ℚ
  decode_chunk_size : Int
  seed : Int
deriving DecidableEq

/-- The parameter defaults installed by `reset_session_states`
(width 1024, height 576, 25 frames, 25 steps, guidance 1.0-3.0, 6 fps,
motion bucket 127, noise 0.02, chunk 8, seed 42). -/
def session_state_defaults : ParameterSet :=
  { width := 1024, height := 576, num_frames := 25, num_inference_steps := 25,
    min_guidance_scale := 1, max_guidance_scale := 3, fps := 6,
    motion_bucket_id := 127, noise_aug_strength := 1 / 50,
    decode_chunk_size := 8, seed := 42 }

/-- Model of `st.number_input(label=..., value=v)` as called in `main`:
returns the value the user entered, or the shown value `v` when the user
left the field alone.  None of the calls in `app.py` passes `min_value`,
`max_value` or `step` bounds, so every entered value is accepted. -/
def number_input (entered : Option α) (v : α) : α := entered.getD v

/-- Per-field user entries for the parameter form of `main` (`none` means
the user did not edit that field). -/
structure FormEntries where
  width : Option Int := none
  height : Option Int := none
  num_frames : Option Int := none
  num_inference_steps : Option Int := none
  min_guidance_scale : Option ℚ := none
  max_guidance_scale : Option ℚ := none
  fps : Option Int := none
  motion_bucket_id : Option Int := none
  noise_aug_strength : Option ℚ := none
  decode_chunk_size : Option Int := none
  seed : Option Int := none

/-- The parameter form of `main` (lines 82-133): one `st.number_input` per
field, each showing the current session value and storing whatever the user
entered back into the session, with no validation of any field and no
cross-field check. -/
def main_form (session : ParameterSet) (e : FormEntries) : ParameterSet :=
  { width := number_input e.width session.width,
    height := number_input e.height session.height,
    num_frames := number_input e.num_frames session.num_frames,
    num_inference_steps := number_input e.num_inference_steps session.num_inference_steps,
    min_guidance_scale := number_input e.min_guidance_scale session.min_guidance_scale,
    max_guidance_scale := number_input e.max_guidance_scale session.max_guidance_scale,
    fps := number_input e.fps session.fps,
    motion_bucket_id := number_input e.motion_bucket_id session.motion_bucket_id,
    noise_aug_strength := number_input e.noise_aug_strength session.noise_aug_strength,
    decode_chunk_size := number_input e.decode_chunk_size session.decode_chunk_size,
    seed := number_input e.seed session.seed }

/-- The `data` dict built by `invoke_model` and serialized with `json.dump`
into the request payload: the base64-encoded image followed by the eleven
parameter fields, keyed as in the source.  `json.dump`/`json.load` round-trip
this object exactly (dict order preserved, ints and floats exact), so the
document is modelled structurally as the ordered key-value list. -/
def invoke_model_data (image_b64 : String) (p : ParameterSet) : List (String × JVal) :=
  [("image", .jstr image_b64),
   ("width", .jint p.width),
   ("height", .jint p.height),
   ("num_frames", .jint p.num_frames),
   ("num_inference_steps", .jint p.num_inference_steps),
   ("min_guidance_scale", .jfloat p.min_guidance_scale),
   ("max_guidance_scale", .jfloat p.max_guidance_scale),
   ("fps", .jint p.fps),
   ("motion_bucket_id", .jint p.motion_bucket_id),
   ("noise_aug_strength", .jfloat p.noise_aug_strength),
   ("decode_chunk_size", .jint p.decode_chunk_size),
   ("seed", .jint p.seed)]

/-- Read an int field of a JSON document. -/
def jint_field (doc : List (String × JVal)) (k : String) : Option Int :=
  match List.lookup k doc with
  | some (.jint n) => some n
  | _ => none

/-- Read a float field of a JSON document. -/
def jfloat_field (doc : List (String × JVal)) (k : String) : Option ℚ :=
  match List.lookup k doc with
  | some (.jfloat q) => some q
  | _ => none

/-- Modelled from the spec: the hypothetical `decodeRequest` of §8 does not
exist in the code; following the spec's words it parses the serialized JSON
request document and recovers the parameter values from their fields. -/
def decodeRequest (doc : List (String × JVal)) : Option ParameterSet := do
  let w ← jint_field doc "width"
  let h ← jint_field doc "height"
  let nf ← jint_field doc "num_frames"
  let ns ← jint_field doc "num_inference_steps"
  let mn ← jfloat_field doc "min_guidance_scale"
  let mx ← jfloat_field doc "max_guidance_scale"
  let fp ← jint_field doc "fps"
  let mb ← jint_field doc "motion_bucket_id"
  let na ← jfloat_field doc "noise_aug_strength"
  let dc ← jint_field doc "decode_chunk_size"
  let sd ← jint_field doc "seed"
  some ⟨w, h, nf, ns, mn, mx, fp, mb, na, dc, sd⟩

/-- Outcome of the response-processing step of `main` (lines 142-145):
`keyError` when `data["frames"]` raises `KeyError`, otherwise the outcome of
`save_video_frames` (the failing 0-based index, if any entry failed to
decode). -/
inductive RespOutcome
  | keyError
  | ranFrames (failed : Option Nat)

/-- Extract the list of frame strings from the value of the `frames` field;
per the response layout (spec §6) the field holds a list of base64 strings. -/
def jstrings : JVal → List String
  | .jarr l => l.filterMap (fun v => match v with | .jstr s => some s | _ => none)
  | _ => []

/-- The response-processing step of `main`: `data = json.load(f)` followed by
`save_video_frames(data["frames"])`.  A missing `frames` key raises
`KeyError` before `save_video_frames` is called, leaving the filesystem
untouched. -/
def process_response (doc : List (String × JVal)) (fs : FS) : RespOutcome × FS :=
  match List.lookup "frames" doc with
  | none => (.keyError, fs)
  | some v =>
      let r := save_video_frames (jstrings v) fs
      (.ranFrames r.1, r.2)

/-! ### Decimal-representation lemmas -/

theorem digit_char_toNat (d : Nat) (h : d < 10) : (digit_char d).toNat = 48 + d := by
  interval_cases d <;> decide

/-- Read a digit string back as a number (left inverse of `nat_digits_aux`). -/
def digits_val (l : List Char) : Nat :=
  l.foldl (fun acc c => 10 * acc + (c.toNat - 48)) 0

theorem digits_val_append (l : List Char) (c : Char) :
    digits_val (l ++ [c]) = 10 * digits_val l + (c.toNat - 48) := by
  simp [digits_val, List.foldl_append]

theorem digits_val_nat_digits_aux (fuel : Nat) :
    ∀ n, n < fuel → digits_val (nat_digits_aux fuel n) = n := by
  induction fuel with
  | zero => omega
  | succ fuel ih =>
      intro n hn
      by_cases h10 : n < 10
      · simp [nat_digits_aux, h10, digits_val, digit_char_toNat n h10]
      · have hdiv : n / 10 < fuel := by
          have := Nat.div_lt_self (by omega : 0 < n) (by omega : 1 < 10)
          omega
        rw [nat_digits_aux, if_neg h10, digits_val_append, ih _ hdiv,
          digit_char_toNat _ (Nat.mod_lt n (by omega))]
        omega

theorem nat_repr_injective : Function.Injective nat_repr := by
  intro m n h
  have hd : nat_digits_aux (m + 1) m = nat_digits_aux (n + 1) n := congrArg String.data h
  have := congrArg digits_val hd
  rwa [digits_val_nat_digits_aux _ m (Nat.lt_succ_self m),
    digits_val_nat_digits_aux _ n (Nat.lt_succ_self n)] at this

theorem nat_digits_aux_head (fuel : Nat) :
    ∀ n, n < fuel → 1 ≤ n →
      ∃ d t, nat_digits_aux fuel n = digit_char d :: t ∧ 1 ≤ d ∧ d ≤ 9 := by
  induction fuel with
  | zero => omega
  | succ fuel ih =>
      intro n hn h1
      by_cases h10 : n < 10
      · exact ⟨n, [], by simp [nat_digits_aux, h10], h1, by omega⟩
      · have hdiv : n / 10 < fuel := by
          have := Nat.div_lt_self (by omega : 0 < n) (by omega : 1 < 10)
          omega
        obtain ⟨d, t, ht, hd1, hd9⟩ := ih (n / 10) hdiv (by omega)
        exact ⟨d, t ++ [digit_char (n % 10)],
          by rw [nat_digits_aux, if_neg h10, ht]; rfl, hd1, hd9⟩

/-- `str(n)` for `n ≥ 1` starts with a nonzero digit. -/
theorem nat_repr_head (n : Nat) (h1 : 1 ≤ n) :
    ∃ d t, (nat_repr n).data = digit_char d :: t ∧ 1 ≤ d ∧ d ≤ 9 :=
  nat_digits_aux_head (n + 1) n (Nat.lt_succ_self n) h1

theorem frame_name_data_lt (idx : Nat) (h : idx < 9) :
    (frame_name idx).data =
      "frames_out/frame_".data ++ (digit_char 0 :: (nat_repr (idx + 1)).data) ++ ".jpg".data := by
  rw [frame_name, if_pos h, String.data_append, String.data_append]
  have : "frames_out/frame_0".data = "frames_out/frame_".data ++ [digit_char 0] := by decide
  rw [this]
  simp

theorem frame_name_data_ge (idx : Nat) (h : ¬ idx < 9) :
    (frame_name idx).data =
      "frames_out/frame_".data ++ (nat_repr (idx + 1)).data ++ ".jpg".data := by
  rw [frame_name, if_neg h, String.data_append, String.data_append]

/-- Distinct enumerate indices get distinct frame paths: the two-digit names
`frame_01 … frame_09` never collide with the unpadded names `frame_10, …`
because the decimal representation of `idx + 1 ≥ 10` has no leading zero. -/
theorem frame_name_injective : Function.Injective frame_name := by
  intro i j h
  have hd := congrArg String.data h
  by_cases hi : i < 9 <;> by_cases hj : j < 9
  · rw [frame_name_data_lt i hi, frame_name_data_lt j hj] at hd
    have h2 := List.append_cancel_left (List.append_cancel_right hd)
    have h3 : nat_repr (i + 1) = nat_repr (j + 1) :=
      String.ext (List.cons_injective h2)
    have := nat_repr_injective h3
    omega
  · rw [frame_name_data_lt i hi, frame_name_data_ge j hj] at hd
    have h2 := List.append_cancel_left (List.append_cancel_right hd)
    obtain ⟨d, t, ht, hd1, _⟩ := nat_repr_head (j + 1) (by omega)
    rw [ht] at h2
    have hc : digit_char 0 = digit_char d := (List.cons.injEq _ _ _ _).mp h2 |>.1
    have := congrArg Char.toNat hc
    rw [digit_char_toNat 0 (by omega), digit_char_toNat d (by omega)] at this
    omega
  · rw [frame_name_data_ge i hi, frame_name_data_lt j hj] at hd
    have h2 := List.append_cancel_left (List.append_cancel_right hd)
    obtain ⟨d, t, ht, hd1, _⟩ := nat_repr_head (i + 1) (by omega)
    rw [ht] at h2
    have hc : digit_char d = digit_char 0 := (List.cons.injEq _ _ _ _).mp h2 |>.1
    have := congrArg Char.toNat hc
    rw [digit_char_toNat 0 (by omega), digit_char_toNat d (by omega)] at this
    omega
  · rw [frame_name_data_ge i hi, frame_name_data_ge j hj] at hd
    have h2 := List.append_cancel_left (List.append_cancel_right hd)
    have h3 : nat_repr (i + 1) = nat_repr (j + 1) := String.ext h2
    have := nat_repr_injective h3
    omega

/-! ### Lexicographic ordering of frame paths

Python's `sorted` on `str` compares code points lexicographically; on the
modelled paths this is `List.lt` on the character data (which is exactly
Lean's `String.lt`). -/

theorem digit_char_lt (a : Nat) (ha : a < 10) (b : Nat) (hb : b < 10) (h : a < b) :
    digit_char a < digit_char b := by
  revert h; revert hb; revert b; revert ha; revert a; decide

theorem list_lt_append_left (p : List Char) {l₁ l₂ : List Char} (h : l₁ < l₂) :
    p ++ l₁ < p ++ l₂ := by
  induction p with
  | nil => exact h
  | cons c p ih => exact List.Lex.cons ih

theorem nat_digits_one (n : Nat) (h : n < 10) :
    nat_digits_aux (n + 1) n = [digit_char n] := by
  rw [nat_digits_aux, if_pos h]

theorem nat_digits_two (n : Nat) (h1 : 10 ≤ n) (h2 : n < 100) :
    nat_digits_aux (n + 1) n = [digit_char (n / 10), digit_char (n % 10)] := by
  rw [nat_digits_aux, if_neg (by omega)]
  obtain ⟨m, rfl⟩ : ∃ m, n = m + 1 := ⟨n - 1, by omega⟩
  rw [nat_digits_aux, if_pos (by omega)]
  rfl

/-- Strict monotonicity of the frame paths over the first 99 indices: for
`idx ≤ 98` every sequence number is zero-padded to exactly two digits, so the
lexical path order agrees with the numeric order. -/
theorem frame_name_lt (i j : Nat) (hij : i < j) (hj : j ≤ 98) :
    (frame_name i).data < (frame_name j).data := by
  by_cases hi9 : i < 9 <;> by_cases hj9 : j < 9
  · rw [frame_name_data_lt i hi9, frame_name_data_lt j hj9,
      List.append_assoc, List.append_assoc]
    refine list_lt_append_left _ ?_
    rw [show (nat_repr (i + 1)).data = [digit_char (i + 1)] from nat_digits_one _ (by omega),
      show (nat_repr (j + 1)).data = [digit_char (j + 1)] from nat_digits_one _ (by omega)]
    simp only [List.cons_append, List.nil_append]
    exact List.Lex.cons (List.Lex.rel (digit_char_lt (i + 1) (by omega) (j + 1) (by omega) (by omega)))
  · rw [frame_name_data_lt i hi9, frame_name_data_ge j hj9,
      List.append_assoc, List.append_assoc]
    refine list_lt_append_left _ ?_
    rw [show (nat_repr (j + 1)).data =
        [digit_char ((j + 1) / 10), digit_char ((j + 1) % 10)] from
      nat_digits_two _ (by omega) (by omega)]
    simp only [List.cons_append, List.nil_append]
    exact List.Lex.rel (digit_char_lt 0 (by omega) ((j + 1) / 10) (by omega) (by omega))
  · omega
  · rw [frame_name_data_ge i hi9, frame_name_data_ge j hj9,
      List.append_assoc, List.append_assoc]
    refine list_lt_append_left _ ?_
    rw [show (nat_repr (i + 1)).data =
        [digit_char ((i + 1) / 10), digit_char ((i + 1) % 10)] from
      nat_digits_two _ (by omega) (by omega),
      show (nat_repr (j + 1)).data =
        [digit_char ((j + 1) / 10), digit_char ((j + 1) % 10)] from
      nat_digits_two _ (by omega) (by omega)]
    simp only [List.cons_append, List.nil_append]
    by_cases ht : (i + 1) / 10 < (j + 1) / 10
    · exact List.Lex.rel (digit_char_lt ((i + 1) / 10) (by omega) ((j + 1) / 10) (by omega) ht)
    · have heq : (i + 1) / 10 = (j + 1) / 10 := by omega
      rw [heq]
      exact List.Lex.cons
        (List.Lex.rel (digit_char_lt ((i + 1) % 10) (by omega) ((j + 1) % 10) (by omega) (by omega)))

/-- For any frame count up to 99 the produced paths are strictly increasing
in lexical order. -/
theorem frame_names_pairwise (n : Nat) (hn : n ≤ 99) :
    List.Pairwise (fun a b : String => a.data < b.data) (frame_names n) := by
  rw [frame_names, List.pairwise_map]
  refine (List.pairwise_lt_range n).imp_of_mem ?_
  intro a b ha hb hab
  exact frame_name_lt a b hab (by have := List.mem_range.mp hb; omega)

/-! ### Filesystem behavior of save_video_frames -/

/-- The loop only touches the files named for the indices it enumerates. -/
theorem save_go_untouched (frames : List String) :
    ∀ (idx : Nat) (fs : FS) (name : String),
      (∀ j, j < frames.length → name ≠ frame_name (idx + j)) →
      (save_video_frames_go frames idx fs).2 name = fs name := by
  induction frames with
  | nil => intro idx fs name _; rfl
  | cons f rest ih =>
      intro idx fs name h
      have h0 : name ≠ frame_name idx := by
        have := h 0 (by simp)
        simpa using this
      cases hd : decodebytes f with
      | none => simp [save_video_frames_go, hd, fs_write, h0]
      | some bytes =>
          simp only [save_video_frames_go, hd]
          rw [ih (idx + 1) _ name ?_]
          · simp [fs_write, h0]
          · intro j hj
            have := h (j + 1) (by simpa using hj)
            have e : idx + (j + 1) = idx + 1 + j := by omega
            rwa [e] at this

/-- The loop never deletes a file: every write stores contents. -/
theorem save_go_keeps (frames : List String) :
    ∀ idx fs name, fs name ≠ none →
      (save_video_frames_go frames idx fs).2 name ≠ none := by
  induction frames with
  | nil => intro idx fs name h; exact h
  | cons f rest ih =>
      intro idx fs name h
      cases hd : decodebytes f with
      | none =>
          simp only [save_video_frames_go, hd]
          by_cases e : name = frame_name idx <;> simp [fs_write, e, h]
      | some bytes =>
          simp only [save_video_frames_go, hd]
          apply ih
          by_cases e : name = frame_name idx <;> simp [fs_write, e, h]

/-- When every entry decodes, the loop succeeds and the resulting filesystem
holds exactly the prior files plus the enumerated frame files. -/
theorem save_go_success (frames : List String) :
    ∀ idx fs, (∀ f ∈ frames, decodebytes f ≠ none) →
      (save_video_frames_go frames idx fs).1 = none ∧
      ∀ name, ((save_video_frames_go frames idx fs).2 name = none ↔
        (fs name = none ∧ ∀ j, j < frames.length → name ≠ frame_name (idx + j))) := by
  induction frames with
  | nil =>
      intro idx fs _
      exact ⟨rfl, fun name => by simp [save_video_frames_go]⟩
  | cons f rest ih =>
      intro idx fs hdec
      have hf : decodebytes f ≠ none := hdec f (by simp)
      obtain ⟨bytes, hb⟩ : ∃ b, decodebytes f = some b :=
        Option.ne_none_iff_exists'.mp hf
      simp only [save_video_frames_go, hb]
      obtain ⟨h1, h2⟩ := ih (idx + 1)
        (fs_write (fs_write fs (frame_name idx) []) (frame_name idx) bytes)
        (fun g hg => hdec g (by simp [hg]))
      refine ⟨h1, fun name => ?_⟩
      rw [h2 name]
      constructor
      · rintro ⟨hw, hrest⟩
        by_cases e : name = frame_name idx
        · rw [e] at hw; simp [fs_write] at hw
        · refine ⟨by simpa [fs_write, e] using hw, fun j hj => ?_⟩
          cases j with
          | zero => simpa using e
          | succ j =>
              have := hrest j (by simpa using hj)
              have a : idx + 1 + j = idx + (j + 1) := by omega
              rwa [a] at this
      · rintro ⟨hfs, hall⟩
        have e : name ≠ frame_name idx := by simpa using hall 0 (by simp)
        refine ⟨by simp [fs_write, e, hfs], fun j hj => ?_⟩
        have := hall (j + 1) (by simpa using hj)
        have a : idx + (j + 1) = idx + 1 + j := by omega
        rwa [a] at this

/-- When the first failing entry is at position `k`, the loop stops there
(the raised error reports enumerate index `idx + k`) and each earlier frame
file holds its decoded bytes. -/
theorem save_go_fail (frames : List String) :
    ∀ idx fs (k : Nat) (hk : k < frames.length),
      decodebytes (frames.get ⟨k, hk⟩) = none →
      (∀ j (hj : j < k), decodebytes (frames.get ⟨j, hj.trans hk⟩) ≠ none) →
      (save_video_frames_go frames idx fs).1 = some (idx + k) ∧
      ∀ j (hj : j < k),
        (save_video_frames_go frames idx fs).2 (frame_name (idx + j)) =
          decodebytes (frames.get ⟨j, hj.trans hk⟩) := by
  induction frames with
  | nil => intro idx fs k hk; exact absurd hk (by simp)
  | cons f rest ih =>
      intro idx fs k hk hfail hpre
      cases k with
      | zero =>
          have hf : decodebytes f = none := hfail
          simp only [save_video_frames_go, hf]
          exact ⟨by simp, fun j hj => absurd hj (by omega)⟩
      | succ k =>
          have hf : decodebytes f ≠ none := by
            have := hpre 0 (Nat.succ_pos k)
            simpa using this
          obtain ⟨bytes, hb⟩ := Option.ne_none_iff_exists'.mp hf
          simp only [save_video_frames_go, hb]
          have hk' : k < rest.length := by simpa using hk
          obtain ⟨h1, h2⟩ := ih (idx + 1)
            (fs_write (fs_write fs (frame_name idx) []) (frame_name idx) bytes) k hk'
            (by simpa using hfail)
            (fun j hj => by
              have := hpre (j + 1) (by omega)
              simpa using this)
          constructor
          · rw [h1]; congr 1; omega
          · intro j hj
            cases j with
            | zero =>
                rw [show idx + 0 = idx from rfl,
                  save_go_untouched rest (idx + 1) _ (frame_name idx) ?_]
                · simp [fs_write, hb]
                · intro j' hj' heq
                  have := frame_name_injective heq
                  omega
            | succ j =>
                have hj2 : j < k := by omega
                have hval := h2 j hj2
                have a : idx + 1 + j = idx + (j + 1) := by omega
                rw [a] at hval
                exact hval

/-! ### Every frame file matches the ffmpeg glob `frames_out/*.jpg` -/

theorem nat_digits_aux_mem (fuel : Nat) :
    ∀ n c, c ∈ nat_digits_aux fuel n → ∃ d, d < 10 ∧ c = digit_char d := by
  induction fuel with
  | zero => intro n c h; simp [nat_digits_aux] at h
  | succ fuel ih =>
      intro n c h
      by_cases h10 : n < 10
      · rw [nat_digits_aux, if_pos h10] at h
        simp at h
        exact ⟨n, h10, h⟩
      · rw [nat_digits_aux, if_neg h10] at h
        rw [List.mem_append] at h
        cases h with
        | inl h => exact ih _ c h
        | inr h =>
            simp at h
            exact ⟨n % 10, Nat.mod_lt _ (by omega), h⟩

theorem no_slash_digits (fuel n : Nat) :
    (nat_digits_aux fuel n).all (fun c => c.toNat ≠ 47) = true := by
  rw [List.all_eq_true]
  intro c hc
  obtain ⟨d, hd, rfl⟩ := nat_digits_aux_mem fuel n c hc
  have ht := digit_char_toNat d hd
  simp [ht]
  omega

theorem glob_aux (mid : List Char) (hmid : mid.all (fun c => c.toNat ≠ 47) = true) :
    ("frames_out/".data.isPrefixOf ("frames_out/frame_".data ++ mid ++ ".jpg".data) &&
      ".jpg".data.isSuffixOf ("frames_out/frame_".data ++ mid ++ ".jpg".data) &&
      (("frames_out/frame_".data ++ mid ++ ".jpg".data).drop 11).all
        (fun c => c.toNat ≠ 47)) = true := by
  have hsplit : ("frames_out/frame_".data : List Char) =
      "frames_out/".data ++ "frame_".data := by decide
  rw [Bool.and_eq_true, Bool.and_eq_true]
  refine ⟨⟨?_, ?_⟩, ?_⟩
  · rw [List.isPrefixOf_iff_prefix, hsplit, List.append_assoc, List.append_assoc]
    exact List.prefix_append _ _
  · rw [List.isSuffixOf_iff_suffix]
    exact List.suffix_append _ _
  · rw [hsplit, List.append_assoc, List.append_assoc,
      show (11 : Nat) = ("frames_out/".data : List Char).length from by decide,
      List.drop_left, List.all_append, List.all_append, hmid]
    decide

/-- Every frame path written by `save_video_frames` is picked up by the
`frames_out/*.jpg` glob that `convert_frames_to_video` hands to ffmpeg. -/
theorem glob_matches_frame_name (i : Nat) : glob_matches (frame_name i) = true := by
  by_cases hi : i < 9
  · unfold glob_matches
    rw [frame_name_data_lt i hi]
    apply glob_aux
    simp only [List.all_cons]
    rw [show (nat_repr (i + 1)).data = nat_digits_aux (i + 2) (i + 1) from rfl,
      no_slash_digits]
    decide
  · unfold glob_matches
    rw [frame_name_data_ge i hi]
    apply glob_aux
    exact no_slash_digits _ _

/-! ### Runs of the polling loop -/

/-- When the store answers `NoSuchKey` to the first `k` attempts and has the
object on attempt `k + 1`, the loop fetches `k + 1` times with a 15-second
sleep after each miss, then downloads and returns. -/
theorem get_model_response_found (stub : Nat → StoreReply) :
    ∀ (k fuel n0 : Nat),
      (∀ i, i < k → stub (n0 + i) = StoreReply.clientError "NoSuchKey") →
      stub (n0 + k) = StoreReply.content → k < fuel →
      get_model_response_run stub fuel n0 =
        (some PollResult.success,
          List.flatten (List.replicate k [PollEvent.fetch, PollEvent.sleep15]) ++
            [PollEvent.fetch, PollEvent.download]) := by
  intro k
  induction k with
  | zero =>
      intro fuel n0 _ hc hf
      obtain ⟨f, rfl⟩ : ∃ f, fuel = f + 1 := ⟨fuel - 1, by omega⟩
      rw [show n0 + 0 = n0 from rfl] at hc
      simp [get_model_response_run, hc]
  | succ k ih =>
      intro fuel n0 hbefore hc hf
      obtain ⟨f, rfl⟩ : ∃ f, fuel = f + 1 := ⟨fuel - 1, by omega⟩
      have h0 : stub n0 = StoreReply.clientError "NoSuchKey" := by
        have := hbefore 0 (by omega)
        simpa using this
      have hrec := ih f (n0 + 1)
        (fun i hi => by
          have := hbefore (i + 1) (by omega)
          have a : n0 + (i + 1) = n0 + 1 + i := by omega
          rwa [a] at this)
        (by
          have a : n0 + (k + 1) = n0 + 1 + k := by omega
          rwa [a] at hc)
        (by omega)
      simp [get_model_response_run, h0, hrec, List.replicate_succ]

theorem trace_count_fetch (k : Nat) :
    (List.flatten (List.replicate k [PollEvent.fetch, PollEvent.sleep15])).count
      PollEvent.fetch = k := by
  induction k with
  | zero => rfl
  | succ k ih => simp [List.replicate_succ, ih, List.count_cons]

theorem trace_count_sleep (k : Nat) :
    (List.flatten (List.replicate k [PollEvent.fetch, PollEvent.sleep15])).count
      PollEvent.sleep15 = k := by
  induction k with
  | zero => rfl
  | succ k ih => simp [List.replicate_succ, ih, List.count_cons]

example : frame_name 0 = "frames_out/frame_01.jpg" := by decide
example : frame_name 8 = "frames_out/frame_09.jpg" := by decide
example : frame_name 9 = "frames_out/frame_10.jpg" := by decide
example : frame_name 99 = "frames_out/frame_100.jpg" := by decide
example : decodebytes "aGk=" = some [104, 105] := by decide
example : decodebytes "QUJD" = some [65, 66, 67] := by decide
example : decodebytes "QQ" = none := by decide
example : decodebytes "Q" = none := by decide
example : decodebytes "" = some [] := by decide
example : decodebytes "QQ==" = some [65] := by decide
example : decodebytes "QUJD=" = some [65, 66, 67] := by decide
example : decodebytes "QUE==" = some [65, 65] := by decide
example : decodebytes "QUJDĀ" = none := by decide
example : decodebytes "QQ=" = none := by decide
example : decodebytes "QQ=Q" = none := by decide
example : decodebytes "=QUJD" = some [65, 66, 67] := by decide
example : decodebytes "QQ==QUJD" = some [65] := by decide
example : decodebytes "QUJDRA==" = some [65, 66, 67, 68] := by decide
example : decodebytes "Ā" = none := by decide
example : glob_matches "frames_out/frame_01.jpg" = true := by decide
example : glob_matches "frames_out/sub/x.jpg" = false := by decide
example : glob_matches "video_out/demo.mp4" = false := by decide

/-! ## Claims -/

/-- C1, counterexample: the claimed lexical ordering breaks at the 99→100
boundary.  `frame_100.jpg` sorts strictly before `frame_99.jpg` (and before
`frame_11.jpg`), so for `N = 100 ≤ 999` the produced filenames are not in
input order when sorted lexically. -/
theorem C1_counterexample :
    (frame_name 99).data < (frame_name 98).data ∧
    frame_name 98 ≠ frame_name 99 ∧
    ¬ List.Pairwise (fun a b : String => a.data < b.data) (frame_names 100) := by
  refine ⟨by decide, by decide, fun h => ?_⟩
  have h98 : (98 : Nat) < (frame_names 100).length := by simp [frame_names]
  have h99 : (99 : Nat) < (frame_names 100).length := by simp [frame_names]
  have h2 := List.pairwise_iff_getElem.mp h 98 99 h98 h99 (by omega)
  have e98 : (frame_names 100)[98] = frame_name 98 := by
    simp [frame_names, List.getElem_map, List.getElem_range]
  have e99 : (frame_names 100)[99] = frame_name 99 := by
    simp [frame_names, List.getElem_map, List.getElem_range]
  rw [e98, e99] at h2
  exact absurd h2 (by decide)

/-- C1 (amended): for every frame sequence of length `N ≤ 99`, the
frame-writing step produces exactly `N` files whose names encode the 1-based
sequence number zero-padded to width 2, and the names are strictly increasing
in lexical order, so sorting them yields the frames in input order; the
9→10 boundary keeps the ordering, but it breaks at 99→100
(see the counterexample). -/
theorem C1_theorem (frames : List String) (hN : frames.length ≤ 99)
    (hdec : ∀ f ∈ frames, decodebytes f ≠ none) :
    (save_video_frames frames fs_empty).1 = none ∧
    (∀ name, (save_video_frames frames fs_empty).2 name ≠ none ↔
      name ∈ frame_names frames.length) ∧
    (frame_names frames.length).length = frames.length ∧
    (frame_names frames.length).Nodup ∧
    List.Pairwise (fun a b : String => a.data < b.data)
      (frame_names frames.length) := by
  obtain ⟨h1, h2⟩ := save_go_success frames 0 fs_empty hdec
  refine ⟨h1, fun name => ⟨fun hne => ?_, fun hmem hnone => ?_⟩,
    by simp [frame_names],
    List.Nodup.map frame_name_injective (List.nodup_range _),
    frame_names_pairwise _ hN⟩
  · by_contra hmem
    refine hne ((h2 name).mpr ⟨rfl, fun j hj heq => hmem ?_⟩)
    rw [heq, Nat.zero_add]
    exact List.mem_map_of_mem _ (List.mem_range.mpr hj)
  · obtain ⟨_, hall⟩ := (h2 name).mp hnone
    obtain ⟨j, hj, hej⟩ :
        ∃ j, j < frames.length ∧ frame_name j = name := by
      simpa [frame_names, List.mem_map, List.mem_range] using hmem
    exact hall j hj (by rw [Nat.zero_add]; exact hej.symm)

/-- C1, witness: a 10-frame run (crossing the 9→10 boundary) succeeds,
writes exactly the 10 frame files, and their names sort in input order. -/
theorem C1_witness :
    (save_video_frames (List.replicate 10 "aGk=") fs_empty).1 = none ∧
    (∀ name, (save_video_frames (List.replicate 10 "aGk=") fs_empty).2 name ≠ none ↔
      name ∈ frame_names (List.replicate 10 "aGk=").length) ∧
    (frame_names (List.replicate 10 "aGk=").length).length =
      (List.replicate 10 "aGk=").length ∧
    (frame_names (List.replicate 10 "aGk=").length).Nodup ∧
    List.Pairwise (fun a b : String => a.data < b.data)
      (frame_names (List.replicate 10 "aGk=").length) :=
  C1_theorem (List.replicate 10 "aGk=") (by decide) (by decide)

/-- C2, counterexample: decoding is not all-or-nothing.  With the frame list
`["QUJD", "QQ"]` the second entry fails base64 decoding (incorrect padding)
and the error propagates, but the first frame's file has already been
written with its decoded bytes and is left behind. -/
theorem C2_counterexample :
    (save_video_frames ["QUJD", "QQ"] fs_empty).1 = some 1 ∧
    (save_video_frames ["QUJD", "QQ"] fs_empty).2 "frames_out/frame_01.jpg" =
      some [65, 66, 67] := by decide

/-- C2 (amended): if the first failing entry of the frame list is at 0-based
index `k`, `save_video_frames` raises at that entry (so a decode error is
signalled), but the frame files for all earlier entries have already been
written with their decoded bytes and are not rolled back. -/
theorem C2_theorem (frames : List String) (fs : FS) (k : Nat)
    (hk : k < frames.length)
    (hfail : decodebytes (frames.get ⟨k, hk⟩) = none)
    (hpre : ∀ j (hj : j < k), decodebytes (frames.get ⟨j, hj.trans hk⟩) ≠ none) :
    (save_video_frames frames fs).1 = some k ∧
    ∀ j (hj : j < k),
      (save_video_frames frames fs).2 (frame_name j) =
        decodebytes (frames.get ⟨j, hj.trans hk⟩) := by
  obtain ⟨h1, h2⟩ := save_go_fail frames 0 fs k hk hfail hpre
  refine ⟨by simpa using h1, fun j hj => ?_⟩
  have := h2 j hj
  simpa using this

/-- C2, witness: with frames `["aGk=", "QUJD", "QQ"]` the run fails at index
2 while the files of the two earlier frames keep their decoded contents. -/
theorem C2_witness :
    (save_video_frames ["aGk=", "QUJD", "QQ"] fs_empty).1 = some 2 ∧
    (save_video_frames ["aGk=", "QUJD", "QQ"] fs_empty).2 (frame_name 0) =
      decodebytes "aGk=" ∧
    (save_video_frames ["aGk=", "QUJD", "QQ"] fs_empty).2 (frame_name 1) =
      decodebytes "QUJD" := by
  obtain ⟨h1, h2⟩ := C2_theorem ["aGk=", "QUJD", "QQ"] fs_empty 2 (by decide)
    (by decide) (by decide)
  exact ⟨h1, h2 0 (by decide), h2 1 (by decide)⟩

/-- C3: if the store answers `NoSuchKey` on the first `k` `get_object`
attempts and has the object on attempt `k + 1`, `get_model_response` reaches
the object exactly on attempt `k + 1` (making `k + 1` fetches in total and no
more), sleeps the fixed 15-second interval exactly `k` times, and downloads
the object as its final action before returning successfully. -/
theorem C3_theorem (stub : Nat → StoreReply) (k fuel : Nat)
    (hbefore : ∀ i, i < k → stub i = StoreReply.clientError "NoSuchKey")
    (hk : stub k = StoreReply.content) (hfuel : k < fuel) :
    get_model_response_run stub fuel 0 =
      (some PollResult.success,
        List.flatten (List.replicate k [PollEvent.fetch, PollEvent.sleep15]) ++
          [PollEvent.fetch, PollEvent.download]) ∧
    (get_model_response_run stub fuel 0).2.count PollEvent.fetch = k + 1 ∧
    (get_model_response_run stub fuel 0).2.count PollEvent.sleep15 = k ∧
    (get_model_response_run stub fuel 0).2.getLast? = some PollEvent.download := by
  have h := get_model_response_found stub k fuel 0
    (fun i hi => by simpa using hbefore i hi) (by simpa using hk) hfuel
  refine ⟨h, ?_, ?_, ?_⟩ <;> rw [h]
  · simp [List.count_append, trace_count_fetch, List.count_cons]
  · simp [List.count_append, trace_count_sleep, List.count_cons]
  · rw [show List.flatten (List.replicate k [PollEvent.fetch, PollEvent.sleep15]) ++
          [PollEvent.fetch, PollEvent.download] =
        (List.flatten (List.replicate k [PollEvent.fetch, PollEvent.sleep15]) ++
          [PollEvent.fetch]) ++ [PollEvent.download] by simp,
      List.getLast?_concat]

/-- C3, witness: a stub that misses twice and then has the object: the run
fetches 3 times, sleeps twice, downloads last, and succeeds. -/
theorem C3_witness :
    get_model_response_run
        (fun n => if n < 2 then StoreReply.clientError "NoSuchKey"
          else StoreReply.content) 3 0 =
      (some PollResult.success,
        List.flatten (List.replicate 2 [PollEvent.fetch, PollEvent.sleep15]) ++
          [PollEvent.fetch, PollEvent.download]) ∧
    (get_model_response_run
        (fun n => if n < 2 then StoreReply.clientError "NoSuchKey"
          else StoreReply.content) 3 0).2.count PollEvent.fetch = 2 + 1 ∧
    (get_model_response_run
        (fun n => if n < 2 then StoreReply.clientError "NoSuchKey"
          else StoreReply.content) 3 0).2.count PollEvent.sleep15 = 2 ∧
    (get_model_response_run
        (fun n => if n < 2 then StoreReply.clientError "NoSuchKey"
          else StoreReply.content) 3 0).2.getLast? = some PollEvent.download :=
  C3_theorem _ 2 3 (by decide) (by decide) (by decide)

/-- C4: if the first `get_object` attempt raises a `ClientError` whose code
is not `NoSuchKey`, `get_model_response` re-raises immediately: the run ends
on that attempt with exactly one fetch, no sleep, no further fetch and no
download. -/
theorem C4_theorem (stub : Nat → StoreReply) (code : String) (fuel : Nat)
    (hcode : code ≠ "NoSuchKey") (h0 : stub 0 = StoreReply.clientError code)
    (hfuel : 1 ≤ fuel) :
    get_model_response_run stub fuel 0 =
      (some (PollResult.raised code), [PollEvent.fetch]) := by
  obtain ⟨f, rfl⟩ : ∃ f, fuel = f + 1 := ⟨fuel - 1, by omega⟩
  simp [get_model_response_run, h0, hcode]

/-- C4, witness: an `AccessDenied` reply on the first attempt is re-raised
with a single fetch event. -/
theorem C4_witness :
    get_model_response_run (fun _ => StoreReply.clientError "AccessDenied") 1 0 =
      (some (PollResult.raised "AccessDenied"), [PollEvent.fetch]) :=
  C4_theorem _ "AccessDenied" 1 (by decide) rfl (by decide)

/-- C5: the `while True:` polling loop has no attempt or elapsed-time bound:
if every attempt yields `NoSuchKey` the loop never terminates (it is still
running after any number of iterations, and never produces a timeout
outcome), and conversely a run that terminates did observe some attempt
whose reply was content or a non-`NoSuchKey` error. -/
theorem C5_theorem (stub : Nat → StoreReply) :
    ((∀ n, stub n = StoreReply.clientError "NoSuchKey") →
      ∀ fuel n0, (get_model_response_run stub fuel n0).1 = none) ∧
    (∀ fuel n0 r, (get_model_response_run stub fuel n0).1 = some r →
      ∃ m, n0 ≤ m ∧ stub m ≠ StoreReply.clientError "NoSuchKey") := by
  constructor
  · intro h fuel
    induction fuel with
    | zero => intro n0; rfl
    | succ f ih =>
        intro n0
        simp [get_model_response_run, h n0, ih (n0 + 1)]
  · intro fuel
    induction fuel with
    | zero => intro n0 r hr; exact absurd hr (by simp [get_model_response_run])
    | succ f ih =>
        intro n0 r hr
        cases hs : stub n0 with
        | content =>
            exact ⟨n0, le_refl _, by rw [hs]; intro hcon; cases hcon⟩
        | clientError code =>
            by_cases hc : code = "NoSuchKey"
            · subst hc
              have h2 : (get_model_response_run stub f (n0 + 1)).1 = some r := by
                simpa [get_model_response_run, hs] using hr
              obtain ⟨m, hm, hne⟩ := ih (n0 + 1) r h2
              exact ⟨m, by omega, hne⟩
            · exact ⟨n0, le_refl _, by rw [hs]; simp [hc]⟩

/-- C5, witness: against an all-`NoSuchKey` stub the loop is still running
after 5 iterations. -/
theorem C5_witness :
    (get_model_response_run (fun _ => StoreReply.clientError "NoSuchKey") 5 0).1 =
      none :=
  (C5_theorem _).1 (fun _ => rfl) 5 0

/-- C6: the size check in `main` does not gate the job.  With an uploaded
image one byte over `MAX_FILE_SIZE` and the `Create Video` button pressed,
the render pass shows the size error yet still performs the S3 upload, the
asynchronous endpoint invocation and the result-store polling — the claim
that no network call is made is violated by the code (the error message
documents the intent to reject the file, but the `if create_video:` branch
runs `invoke_model` unconditionally). -/
theorem C6_theorem :
    main_actions (MAX_FILE_SIZE + 1) true =
      [AppAction.showSizeError, AppAction.writeRequestPayload,
        AppAction.s3UploadRequest, AppAction.invokeEndpointAsync,
        AppAction.pollFetch, AppAction.writeFrames, AppAction.runVideoEncoder] ∧
    AppAction.s3UploadRequest ∈ main_actions (MAX_FILE_SIZE + 1) true ∧
    AppAction.invokeEndpointAsync ∈ main_actions (MAX_FILE_SIZE + 1) true ∧
    AppAction.pollFetch ∈ main_actions (MAX_FILE_SIZE + 1) true := by decide

/-- C7: if the response document has no `frames` field, the lookup
`data["frames"]` raises before `save_video_frames` is called: the job aborts
at the decode step and the filesystem is returned unchanged — no frame file
is written. -/
theorem C7_theorem (doc : List (String × JVal)) (fs : FS)
    (h : List.lookup "frames" doc = none) :
    process_response doc fs = (RespOutcome.keyError, fs) := by
  simp [process_response, h]

/-- C7, witness: a document with only a `prediction` field aborts with the
key error and leaves the empty filesystem empty. -/
theorem C7_witness :
    process_response [("prediction", JVal.jstr "x")] fs_empty =
      (RespOutcome.keyError, fs_empty) :=
  C7_theorem [("prediction", JVal.jstr "x")] fs_empty rfl

/-- C8: serializing a request as `invoke_model` does (the `data` dict with
the encoded image and the eleven parameter fields, dumped to JSON) and then
decoding it with the spec's hypothetical `decodeRequest` recovers every
parameter value exactly. -/
theorem C8_theorem (image_b64 : String) (p : ParameterSet) :
    decodeRequest (invoke_model_data image_b64 p) = some p := by
  cases p
  rfl

/-- A parameter set reachable through the form in `main`: the guidance
scales are entered as 5.0 and 1.0 and every `st.number_input` stores the
entered value unchecked. -/
def p_bad : ParameterSet :=
  main_form session_state_defaults
    { min_guidance_scale := some 5, max_guidance_scale := some 1 }

/-- C9, counterexample: the invariant `minGuidanceScale ≤ maxGuidanceScale`
is not enforced anywhere: the payload built by `invoke_model` from the
reachable parameter set `p_bad` carries `min_guidance_scale = 5.0` and
`max_guidance_scale = 1.0`, and `5 ≤ 1` is false. -/
theorem C9_counterexample :
    jfloat_field (invoke_model_data "img" p_bad) "min_guidance_scale" = some 5 ∧
    jfloat_field (invoke_model_data "img" p_bad) "max_guidance_scale" = some 1 ∧
    ¬ ((5 : ℚ) ≤ 1) := by decide

/-- C9 (amended): the program never validates the guidance scales — the
submitted payload carries exactly the values coming out of the unbounded
form widgets, so the invariant holds only when the user's values happen to
satisfy it; the defaults (1.0 and 3.0) do. -/
theorem C9_theorem (s : ParameterSet) (e : FormEntries) (img : String) :
    jfloat_field (invoke_model_data img (main_form s e)) "min_guidance_scale" =
      some (number_input e.min_guidance_scale s.min_guidance_scale) ∧
    jfloat_field (invoke_model_data img (main_form s e)) "max_guidance_scale" =
      some (number_input e.max_guidance_scale s.max_guidance_scale) ∧
    session_state_defaults.min_guidance_scale ≤
      session_state_defaults.max_guidance_scale :=
  ⟨rfl, rfl, by norm_num [session_state_defaults]⟩

/-- C10: writing a frame sequence only touches the files named for its
frames and deletes nothing, and `convert_frames_to_video` consumes every
existing file matching `frames_out/*.jpg` (which every frame file does), so
a frame file left behind by a previous longer run is unchanged by the new
run's write step and is part of the new video's input set. -/
theorem C10_theorem (frames : List String) (fs : FS) (name : String)
    (htarget : ∀ j, j < frames.length → name ≠ frame_name j) :
    (save_video_frames frames fs).2 name = fs name ∧
    (∀ other, fs other ≠ none → (save_video_frames frames fs).2 other ≠ none) ∧
    (∀ i, glob_matches (frame_name i) = true) ∧
    (glob_matches name = true → fs name ≠ none →
      convert_frames_input (save_video_frames frames fs).2 name) := by
  have hu : (save_video_frames frames fs).2 name = fs name :=
    save_go_untouched frames 0 fs name (fun j hj => by simpa using htarget j hj)
  exact ⟨hu, fun other ho => save_go_keeps frames 0 fs other ho,
    glob_matches_frame_name,
    fun hg hne => ⟨hg, by rw [hu]; exact hne⟩⟩

/-- A filesystem holding one leftover frame file from an earlier 25-frame
run. -/
def leftover_fs : FS :=
  fun n => if n = "frames_out/frame_25.jpg" then some [255, 216] else none

/-- C10, witness: a new 3-frame run leaves the leftover `frame_25.jpg`
untouched, deletes nothing, and the leftover file is in the glob input set
of the subsequent video encoding. -/
theorem C10_witness :
    (save_video_frames ["aGk=", "aGk=", "aGk="] leftover_fs).2
        "frames_out/frame_25.jpg" = leftover_fs "frames_out/frame_25.jpg" ∧
    (∀ other, leftover_fs other ≠ none →
      (save_video_frames ["aGk=", "aGk=", "aGk="] leftover_fs).2 other ≠ none) ∧
    (∀ i, glob_matches (frame_name i) = true) ∧
    (glob_matches "frames_out/frame_25.jpg" = true →
      leftover_fs "frames_out/frame_25.jpg" ≠ none →
      convert_frames_input
        (save_video_frames ["aGk=", "aGk=", "aGk="] leftover_fs).2
        "frames_out/frame_25.jpg") :=
  C10_theorem ["aGk=", "aGk=", "aGk="] leftover_fs "frames_out/frame_25.jpg"
    (by decide)
